import Mathlib

/-!
Shallow embedding of the block-level Markdown parser in
`src/mistune3/block_parser.py` (class `BlockParser` and its module-level
helper functions), together with models of the pieces of the repository
that the block parser imports but whose sources are not part of the
repository snapshot (`state.BlockState`, `util.*`, `helpers.*`): those are
modelled from the specification and are marked `Modelled from the spec:`
in their doc comments.

The Python source is translated as follows: the source text is a
`List Char` and positions are character offsets; each regular expression of
the source is translated into an explicit character-level matching
function; Python exceptions (NameError, AttributeError, KeyError,
ValueError) become values of `PyError`, and any function that can raise
returns `Except PyError`.  Mutation of `BlockState` is explicit state
passing; the shared `env.ref_links` table is an association list carried in
the state.
-/

namespace Mistune

/-- Characters of a source buffer. -/
abbrev Chars := List Char

/-- Convert a string literal to the character-list representation. -/
def str (s : String) : Chars := s.data

/-- The backtick character (spelled by code point to keep source plain). -/
def btick : Char := Char.ofNat 96

/-- The NUL character, used as an out-of-range default. -/
def nulChar : Char := Char.ofNat 0

/-- Vertical tab. -/
def vtab : Char := Char.ofNat 11

/-- Form feed. -/
def ffeed : Char := Char.ofNat 12

/-- Characters counted by the `[ \t\v\f]` class of the `blank_line` rule. -/
def isBlankClass (c : Char) : Bool :=
  c = ' ' || c = '\t' || c = vtab || c = ffeed

/-- Characters counted by `[ \t]`. -/
def isSpTab (c : Char) : Bool := c = ' ' || c = '\t'

/-- Characters counted by Python's `\s` (ASCII part, as used here). -/
def isPyWs (c : Char) : Bool :=
  c = ' ' || c = '\t' || c = '\n' || c = '\r' || c = vtab || c = ffeed

/-- Length of the run of `c` at the head of `l`. -/
def countLeading (c : Char) : Chars → Nat
  | [] => 0
  | x :: xs => if x = c then countLeading c xs + 1 else 0

/-- Length of the head run of characters satisfying `f`. -/
def countLeadingP (f : Char → Bool) : Chars → Nat
  | [] => 0
  | x :: xs => if f x then countLeadingP f xs + 1 else 0

/-- The current line of `l` (everything before the first newline). -/
def takeToNl : Chars → Chars
  | [] => []
  | x :: xs => if x = '\n' then [] else x :: takeToNl xs

/-- Length of the current line of `l` (offset of the first newline). -/
def findNl : Chars → Nat
  | [] => 0
  | x :: xs => if x = '\n' then 0 else findNl xs + 1

/-- Character at absolute position `i`, NUL when out of range. -/
def charAt (src : Chars) (i : Nat) : Char := src.getD i nulChar

/-- `re.M` line-start test: position 0 or just after a newline. -/
def isLineStart (src : Chars) (i : Nat) : Bool :=
  i = 0 || charAt src (i - 1) = '\n'

/-- Slice `src[a:b]` (Python slice semantics on character offsets). -/
def slice (src : Chars) (a b : Nat) : Chars := (src.drop a).take (b - a)

/-- Slice `src[a:]`. -/
def sliceFrom (src : Chars) (a : Nat) : Chars := src.drop a

/-- Absolute offset of the end of the line starting inside position `i`,
excluding the newline. -/
def lineEndExcl (src : Chars) (i : Nat) : Nat := i + findNl (src.drop i)

/-- Absolute offset just past the end of the line at position `i`: after the
newline when there is one, the end of the buffer otherwise. -/
def lineEndIncl (src : Chars) (i : Nat) : Nat :=
  let e := lineEndExcl src i
  if e < src.length then e + 1 else e

/-- Split on newline characters (the separators are dropped). -/
def splitNl : Chars → List Chars
  | [] => [[]]
  | x :: xs =>
    if x = '\n' then [] :: splitNl xs
    else
      match splitNl xs with
      | [] => [[x]]
      | l :: ls => (x :: l) :: ls

/-- Join lines with newline characters (inverse of `splitNl`). -/
def joinNl : List Chars → Chars
  | [] => []
  | [l] => l
  | l :: ls => l ++ '\n' :: joinNl ls

/-- Python `str.strip()` on both ends (ASCII whitespace). -/
def stripChars (l : Chars) : Chars :=
  ((l.dropWhile isPyWs).reverse.dropWhile isPyWs).reverse

/-- Python truthiness of an optional integer result (`None` and `0` are
falsy). -/
def pyTruthy : Option Nat → Bool
  | none => false
  | some n => n ≠ 0

/-- Python exceptions raised by the source are modelled as values. -/
inductive PyError where
  | nameError (n : String)
  | attributeError (n : String)
  | keyError (n : String)
  | valueError (msg : String)
deriving Repr, DecidableEq

/-- Attribute values stored in a token's `attrs` mapping. -/
inductive AttrV where
  | s (v : Chars)
  | n (v : Int)
  | b (v : Bool)
deriving Repr, DecidableEq

/-- A block token: `type` discriminator, optional `raw` text, optional
inline-unparsed `text`, an `attrs` mapping, `children`, and the
undocumented top-level `fenced` field that `parse_fenced_code` sets
(`none` models the key being absent from the Python dict). -/
inductive Token where
  | mk (type : String) (raw : Option Chars) (text : Option Chars)
       (attrs : List (String × AttrV)) (children : List Token)
       (fenced : Option Bool)
deriving Repr

/-- Token `type` field. -/
def Token.type : Token → String
  | .mk t _ _ _ _ _ => t

/-- Token `raw` field. -/
def Token.raw : Token → Option Chars
  | .mk _ r _ _ _ _ => r

/-- Token `text` field. -/
def Token.text : Token → Option Chars
  | .mk _ _ t _ _ _ => t

/-- Token `attrs` field. -/
def Token.attrs : Token → List (String × AttrV)
  | .mk _ _ _ a _ _ => a

/-- Token `children` field. -/
def Token.children : Token → List Token
  | .mk _ _ _ _ c _ => c

/-- Token `fenced` field (the extra key of fenced `block_code` tokens). -/
def Token.fenced : Token → Option Bool
  | .mk _ _ _ _ _ f => f

/-- A paragraph token carrying `text`. -/
def paragraphTok (text : Chars) : Token := .mk "paragraph" none (some text) [] [] none

/-! ### Models of the missing `util` module -/

/-- Modelled from the spec: `util.escape` HTML-escapes text (`&`, `<`, `>`
become entities); used by `indent_code`/`fenced_code` for `raw`. -/
def escape : Chars → Chars
  | [] => []
  | c :: cs =>
    (if c = '&' then str "&amp;"
     else if c = '<' then str "&lt;"
     else if c = '>' then str "&gt;"
     else [c]) ++ escape cs

/-- Modelled from the spec: `util.escape_url` escapes a link destination for
safe output; the claims settled here do not depend on its exact escaping, so
it is modelled as the HTML escape. -/
def escape_url (l : Chars) : Chars := escape l

/-- Modelled from the spec: `util.safe_entity` escapes text while keeping
existing entities; the claims settled here do not depend on its exact
escaping, so it is modelled as the HTML escape. -/
def safe_entity (l : Chars) : Chars := escape l

/-- Split into runs of non-whitespace characters, lowercasing as we go
(helper for `unikey`). -/
def splitOnWs : Chars → List Chars
  | [] => [[]]
  | c :: cs =>
    if isPyWs c then [] :: splitOnWs cs
    else
      match splitOnWs cs with
      | [] => [[c.toLower]]
      | w :: ws => (c.toLower :: w) :: ws

/-- Modelled from the spec: `util.unikey` normalizes a link label
(case-fold, collapse internal whitespace, trim). -/
def unikey (l : Chars) : Chars :=
  ((splitOnWs l).filter (fun w => !w.isEmpty)).foldr
    (fun w acc => if acc.isEmpty then w else w ++ ' ' :: acc) []

/-- Modelled from the spec: `util.expand_leading_tab(text, width)` rewrites
each line starting with 0–3 spaces followed by a tab so that the spaces and
the tab become exactly `width` spaces. -/
def expand_leading_tab (width : Nat) (text : Chars) : Chars :=
  joinNl ((splitNl text).map expandLine)
where
  expandLine (l : Chars) : Chars :=
    let sp := countLeading ' ' l
    if sp ≤ 3 ∧ charAt l sp = '\t' then
      List.replicate width ' ' ++ l.drop (sp + 1)
    else l

/-- Modelled from the spec: `util.expand_tab` expands a leading
spaces-then-tab of each line to four spaces (CommonMark examples 5/6). -/
def expand_tab (text : Chars) : Chars := expand_leading_tab 4 text

/-- Modelled from the spec: `util.strip_end` removes trailing whitespace
from the text (used when processing a list item's cleaned source). -/
def strip_end (text : Chars) : Chars :=
  (text.reverse.dropWhile isPyWs).reverse

/-! ### Models of the missing `helpers` module -/

/-- Modelled from the spec: `helpers.unescape_char` removes a backslash
placed before a punctuation character. -/
def unescape_char : Chars → Chars
  | [] => []
  | c :: cs =>
    if c = '\\' then
      match cs with
      | [] => ['\\']
      | d :: ds => d :: unescape_char ds
    else c :: unescape_char cs

/-- Modelled from the spec: the known block-tag name set of §4.5 (HTML rule
6); only membership of lowercase tag names matters. -/
def BLOCK_TAGS : List String :=
  ["address", "article", "aside", "base", "basefont", "blockquote", "body",
   "caption", "center", "col", "colgroup", "dd", "details", "dialog", "dir",
   "div", "dl", "dt", "fieldset", "figcaption", "figure", "footer", "form",
   "frame", "frameset", "h1", "h2", "h3", "h4", "h5", "h6", "head", "header",
   "hr", "html", "iframe", "legend", "li", "link", "main", "menu", "menuitem",
   "nav", "noframes", "ol", "optgroup", "option", "p", "param", "section",
   "source", "summary", "table", "tbody", "td", "tfoot", "th", "thead",
   "title", "tr", "track", "ul"]

/-- Modelled from the spec: the tag names of HTML rule 1 (§4.5), closed by a
matching end tag. -/
def PRE_TAGS : List String := ["pre", "script", "style", "textarea"]

/-- Modelled from the spec: `helpers.parse_link_href(src, pos, block)` reads
a link destination after `[label]:` — optional spaces and at most one
newline, then either `<...>` (no newlines inside) or a nonempty run of
non-whitespace characters; returns the destination and the position after
it, or nothing. -/
def parse_link_href (src : Chars) (pos : Nat) : Option (Chars × Nat) :=
  let l := src.drop pos
  let sp1 := countLeadingP isSpTab l
  let (skip, l2) :=
    if charAt l sp1 = '\n' then
      let sp2 := countLeadingP isSpTab (l.drop (sp1 + 1))
      (sp1 + 1 + sp2, l.drop (sp1 + 1 + sp2))
    else (sp1, l.drop sp1)
  match l2 with
  | [] => none
  | c :: cs =>
    if c = '<' then
      let inner := takeToNl cs
      let k := countLeadingP (fun d => d ≠ '>') inner
      if charAt inner k = '>' then
        some (inner.take k, pos + skip + 1 + k + 1)
      else none
    else
      let k := countLeadingP (fun d => ¬ isPyWs d) l2
      if k = 0 then none else some (l2.take k, pos + skip + k)

/-- Modelled from the spec: `helpers.parse_link_title(src, pos, maxPos)`
reads an optional link title delimited by double quotes, single quotes or
parentheses, ending before `maxPos`; returns the title and the position
after it, or nothing. -/
def parse_link_title (src : Chars) (pos maxPos : Nat) : Option (Chars × Nat) :=
  let l := src.drop pos
  let sp1 := countLeadingP isSpTab l
  let (skip, l2) :=
    if charAt l sp1 = '\n' then
      let sp2 := countLeadingP isSpTab (l.drop (sp1 + 1))
      (sp1 + 1 + sp2, l.drop (sp1 + 1 + sp2))
    else (sp1, l.drop sp1)
  match l2 with
  | [] => none
  | c :: cs =>
    let close := if c = '"' then some '"'
      else if c = Char.ofNat 39 then some (Char.ofNat 39)
      else if c = '(' then some ')'
      else none
    match close with
    | none => none
    | some cc =>
      let k := countLeadingP (fun d => d ≠ cc) cs
      if charAt cs k = cc ∧ pos + skip + 1 + k + 1 ≤ maxPos then
        some (cs.take k, pos + skip + 1 + k + 1)
      else none

/-! ### BlockState (modelled from the spec, §3 and §4.1) -/

/-- Modelled from the spec: `state.BlockState` — source reference, cursor,
`cursor_max`, the token accumulator, the environment's `ref_links` table
(an association list from normalized label to its `attrs`), line counters,
nesting depth, the `in_block` tag and the `list_tight` flag. -/
structure BlockState where
  src : Chars
  cursor : Nat
  cursorMax : Nat
  tokens : List Token
  refLinks : List (Chars × List (String × AttrV))
  line : Nat
  lineRoot : Nat
  depthVal : Nat
  inBlock : String
  listTight : Bool

/-- A fresh root state over a document. -/
def initState (src : Chars) : BlockState :=
  { src := src, cursor := 0, cursorMax := src.length, tokens := [],
    refLinks := [], line := 0, lineRoot := 0, depthVal := 0,
    inBlock := "document", listTight := true }

/-- Modelled from the spec: a child state shares `env` (the link table) and
inherits `depth + 1`; its buffer is installed later by `process`. -/
def BlockState.childState (st : BlockState) : BlockState :=
  { src := [], cursor := 0, cursorMax := 0, tokens := [],
    refLinks := st.refLinks, line := 0, lineRoot := 0,
    depthVal := st.depthVal + 1, inBlock := st.inBlock, listTight := true }

/-- Modelled from the spec: `BlockState.process` installs a text fragment
as the state's buffer. -/
def BlockState.process (st : BlockState) (text : Chars) : BlockState :=
  { st with src := text, cursor := 0, cursorMax := text.length }

/-- Modelled from the spec: `BlockState.depth()`. -/
def BlockState.depth (st : BlockState) : Nat := st.depthVal

/-- Modelled from the spec: `BlockState.last_token()` — the most recently
emitted token. -/
def BlockState.lastToken (st : BlockState) : Option Token := st.tokens.getLast?

/-- Modelled from the spec: `BlockState.find_line_end()` — the offset just
past the current logical line. -/
def BlockState.findLineEnd (st : BlockState) : Nat := lineEndIncl st.src st.cursor

/-- Modelled from the spec: `BlockState.get_text(end)` — the slice from the
cursor to `end`. -/
def BlockState.getText (st : BlockState) (endPos : Nat) : Chars :=
  slice st.src st.cursor endPos

/-- Modelled from the spec: `BlockState.append_token`. -/
def BlockState.appendToken (st : BlockState) (tok : Token) : BlockState :=
  { st with tokens := st.tokens ++ [tok] }

/-- Modelled from the spec (§9): `BlockState.prepend_token` inserts the
token immediately before the most recently appended one. -/
def BlockState.prependToken (st : BlockState) (tok : Token) : BlockState :=
  { st with tokens := st.tokens.dropLast ++ tok :: takeLast st.tokens }
where
  /-- Last element as a one-element list (empty when there is none). -/
  takeLast (l : List Token) : List Token :=
    match l.getLast? with
    | none => []
    | some x => [x]

/-- Replace the last token of a list. -/
def setLast (l : List Token) (tok : Token) : List Token :=
  l.dropLast ++ [tok]

/-- Modelled from the spec: `BlockState.append_paragraph()` — when the last
token is a paragraph, append the current logical line to its `text`,
advance the cursor to the line end and return it; otherwise return
nothing. -/
def BlockState.appendParagraph (st : BlockState) : Option (Nat × BlockState) :=
  match st.tokens.getLast? with
  | none => none
  | some tok =>
    if tok.type = "paragraph" then
      let pos := st.findLineEnd
      let t' := tok.text.getD [] ++ st.getText pos
      let tok' : Token := .mk "paragraph" tok.raw (some t') tok.attrs tok.children tok.fenced
      some (pos, { st with tokens := setLast st.tokens tok', cursor := pos })
    else none

/-- Modelled from the spec: `BlockState.add_paragraph(text)` — extend the
open paragraph or start a new one. -/
def BlockState.addParagraph (st : BlockState) (text : Chars) : BlockState :=
  match st.tokens.getLast? with
  | some tok =>
    if tok.type = "paragraph" then
      let tok' : Token := .mk "paragraph" tok.raw (some (tok.text.getD [] ++ text)) tok.attrs tok.children tok.fenced
      { st with tokens := setLast st.tokens tok' }
    else { st with tokens := st.tokens ++ [paragraphTok text] }
  | none => { st with tokens := st.tokens ++ [paragraphTok text] }

/-- Whether the last token of the state is a paragraph. -/
def BlockState.lastIsParagraph (st : BlockState) : Bool :=
  match st.tokens.getLast? with
  | some tok => tok.type = "paragraph"
  | none => false

/-! ### Rule matchers

Each entry of `BlockParser.SPECIFICATION` is translated into a character
level matcher at an absolute position.  A successful match is a `ReMatch`:
the winning rule name (`m.lastgroup`), the span, and the named captures
(for each rule the outer group, named like the rule, is the whole matched
text). -/

/-- The result of matching one named rule at one position. -/
structure ReMatch where
  rule : String
  start : Nat
  endPos : Nat
  groups : List (String × Chars)

/-- Named capture lookup (`m.group(name)`). -/
def ReMatch.group? (m : ReMatch) (name : String) : Option Chars :=
  m.groups.lookup name

/-- Greedy `(^[ \t\v\f]*\n)+` starting at a line start: consume blank lines
while they last; returns the end after the final consumed newline. -/
def blankLinesFrom (src : Chars) : Nat → Nat → Option Nat
  | 0, _ => none
  | f + 1, j =>
    let k := countLeadingP isBlankClass (src.drop j)
    if charAt src (j + k) = '\n' then
      let j' := j + k + 1
      match blankLinesFrom src f j' with
      | some e => some e
      | none => some j'
    else none

/-- Rule `blank_line`: `(^[ \t\v\f]*\n)+`. -/
def matchBlankLine (src : Chars) (i : Nat) : Option ReMatch :=
  if isLineStart src i then
    match blankLinesFrom src (src.length + 1) i with
    | some e => some ⟨"blank_line", i, e, [("blank_line", slice src i e)]⟩
    | none => none
  else none

/-- Rule `fenced_code` opening:
`^(?P<fenced_1> {0,3})(?P<fenced_2>X{3,})[ \t]*(?P<fenced_3>.*?)$` with `X`
a backtick or tilde run. -/
def matchFencedCode (src : Chars) (i : Nat) : Option ReMatch :=
  if isLineStart src i then
    let line := takeToNl (src.drop i)
    let sp := countLeading ' ' line
    if sp ≤ 3 then
      let c := charAt line sp
      if c = btick ∨ c = '~' then
        let run := countLeading c (line.drop sp)
        if 3 ≤ run then
          let ws := countLeadingP isSpTab (line.drop (sp + run))
          let info := line.drop (sp + run + ws)
          let e := i + line.length
          some ⟨"fenced_code", i, e,
            [("fenced_code", slice src i e),
             ("fenced_1", List.replicate sp ' '),
             ("fenced_2", List.replicate run c),
             ("fenced_3", info)]⟩
        else none
      else none
    else none
  else none

/-- Rule `setex_heading`: `^ {0,3}(?P<setext_1>=|-){1,}[ \t]*$`; the
repeated group captures the last repeated character. -/
def matchSetexHeading (src : Chars) (i : Nat) : Option ReMatch :=
  if isLineStart src i then
    let line := takeToNl (src.drop i)
    let sp := countLeading ' ' line
    if sp ≤ 3 then
      let run := countLeadingP (fun c => c = '=' || c = '-') (line.drop sp)
      if 1 ≤ run ∧ (line.drop (sp + run)).all isSpTab then
        some ⟨"setex_heading", i, i + line.length,
          [("setex_heading", line), ("setext_1", [charAt line (sp + run - 1)])]⟩
      else none
    else none
  else none

/-- The body of the `thematic_break` alternatives: at least three of one of
`-`, `_`, `*`, interleaved with spaces and tabs, starting with the marker
character and reaching the end of the line. -/
def thematicCore (rest : Chars) : Bool :=
  match rest with
  | [] => false
  | c :: _ =>
    (c = '-' || c = '_' || c = '*') &&
    rest.all (fun d => d = c || isSpTab d) &&
    3 ≤ (rest.filter (fun d => d = c)).length

/-- Rule `thematic_break`:
`^ {0,3}((?:-[ \t]*){3,}|(?:_[ \t]*){3,}|(?:\*[ \t]*){3,})$`. -/
def matchThematicBreak (src : Chars) (i : Nat) : Option ReMatch :=
  if isLineStart src i then
    let line := takeToNl (src.drop i)
    let sp := countLeading ' ' line
    if sp ≤ 3 ∧ thematicCore (line.drop sp) then
      some ⟨"thematic_break", i, i + line.length, [("thematic_break", line)]⟩
    else none
  else none

/-- Rule `axt_heading`:
`^ {0,3}(?P<axt_1>#{1,6})(?!#+)(?P<axt_2>[ \t]*|[ \t]+.*?)$`. -/
def matchAxtHeading (src : Chars) (i : Nat) : Option ReMatch :=
  if isLineStart src i then
    let line := takeToNl (src.drop i)
    let sp := countLeading ' ' line
    if sp ≤ 3 then
      let h := countLeading '#' (line.drop sp)
      let rest := line.drop (sp + h)
      if (1 ≤ h ∧ h ≤ 6) ∧ (rest.all isSpTab ∨ isSpTab (charAt line (sp + h))) then
        some ⟨"axt_heading", i, i + line.length,
          [("axt_heading", line),
           ("axt_1", List.replicate h '#'), ("axt_2", rest)]⟩
      else none
    else none
  else none

/-- First alternative of the `indent_code` line prefix: `(?: {4}| *\t)`. -/
def indentPrefix (l : Chars) : Option Nat :=
  if l.take 4 = List.replicate 4 ' ' then some 4
  else
    let sp := countLeading ' ' l
    if charAt l sp = '\t' then some (sp + 1) else none

/-- One `indent_code` line: prefix, `[^\n]+`, then `(?:\n+|$)` (greedy run
of newlines, or the end of the buffer). -/
def indentLineFrom (src : Chars) (j : Nat) : Option Nat :=
  match indentPrefix (src.drop j) with
  | none => none
  | some pre =>
    let t := takeToNl (src.drop (j + pre))
    if t.isEmpty then none
    else
      let k := j + pre + t.length
      let nls := countLeading '\n' (src.drop k)
      if 1 ≤ nls then some (k + nls)
      else if k = src.length then some k
      else none

/-- The trailing `((?:indent line)|\s)*` of `indent_code`, greedy. -/
def indentRestFrom (src : Chars) : Nat → Nat → Nat
  | 0, j => j
  | f + 1, j =>
    match indentLineFrom src j with
    | some e => indentRestFrom src f e
    | none =>
      if j < src.length ∧ isPyWs (charAt src j) then indentRestFrom src f (j + 1)
      else j

/-- Rule `indent_code` (not line-anchored in the source):
`(?: {4}| *\t)[^\n]+(?:\n+|$)((?:(?: {4}| *\t)[^\n]+(?:\n+|$))|\s)*`. -/
def matchIndentCode (src : Chars) (i : Nat) : Option ReMatch :=
  match indentLineFrom src i with
  | none => none
  | some e1 =>
    let e := indentRestFrom src (src.length + 1) e1
    some ⟨"indent_code", i, e, [("indent_code", slice src i e)]⟩

/-- Consume `LINK_LABEL` units (modelled from the spec: a character other
than a bracket or backslash, or a backslash escape; at most 500 units);
returns the position where the units stop. -/
def linkLabelScan (src : Chars) : Nat → Nat → Nat
  | 0, j => j
  | f + 1, j =>
    if src.length ≤ j then j
    else
      let c := charAt src j
      if c = '\\' then
        if j + 1 < src.length ∧ charAt src (j + 1) ≠ '\n' then
          linkLabelScan src f (j + 2)
        else j
      else if c = '[' ∨ c = ']' then j
      else linkLabelScan src f (j + 1)

/-- Rule `ref_link` start: `^ {0,3}\[(?P<link_1>LINK_LABEL)\]:`. -/
def matchRefLink (src : Chars) (i : Nat) : Option ReMatch :=
  if isLineStart src i then
    let sp := countLeading ' ' (src.drop i)
    if sp ≤ 3 ∧ charAt src (i + sp) = '[' then
      let labEnd := linkLabelScan src 500 (i + sp + 1)
      if charAt src labEnd = ']' ∧ charAt src (labEnd + 1) = ':' then
        some ⟨"ref_link", i, labEnd + 2,
          [("ref_link", slice src i (labEnd + 2)),
           ("link_1", slice src (i + sp + 1) labEnd)]⟩
      else none
    else none
  else none

/-- Rule `block_quote` (not line-anchored in the source):
` {0,3}>(?P<quote_1>.*?)$`. -/
def matchBlockQuote (src : Chars) (i : Nat) : Option ReMatch :=
  let sp := countLeading ' ' (src.drop i)
  if sp ≤ 3 ∧ charAt src (i + sp) = '>' then
    let q := takeToNl (src.drop (i + sp + 1))
    let e := i + sp + 1 + q.length
    some ⟨"block_quote", i, e, [("block_quote", slice src i e), ("quote_1", q)]⟩
  else none

/-- Rule `list`:
`^(?P<list_1> {0,3})(?P<list_2>[\*\+-]|\d{1,9}[.)])(?P<list_3>[ \t]*|[ \t].+)$`. -/
def matchList (src : Chars) (i : Nat) : Option ReMatch :=
  if isLineStart src i then
    let line := takeToNl (src.drop i)
    let sp := countLeading ' ' line
    if sp ≤ 3 then
      let c := charAt line sp
      let marker : Option Chars :=
        if c = '*' ∨ c = '+' ∨ c = '-' then some [c]
        else
          let d := countLeadingP Char.isDigit (line.drop sp)
          let punct := charAt line (sp + d)
          if (1 ≤ d ∧ d ≤ 9) ∧ (punct = '.' ∨ punct = ')') then
            some ((line.drop sp).take d ++ [punct])
          else none
      match marker with
      | none => none
      | some mk =>
        let rest := line.drop (sp + mk.length)
        if rest.all isSpTab ∨ (isSpTab (charAt line (sp + mk.length)) ∧ 2 ≤ rest.length) then
          some ⟨"list", i, i + line.length,
            [("list", line), ("list_1", List.replicate sp ' '),
             ("list_2", mk), ("list_3", rest)]⟩
        else none
    else none
  else none

/-- A character allowed inside an HTML tag name after the first letter
(`HTML_TAGNAME`, modelled from the spec). -/
def isTagNameChar (c : Char) : Bool := c.isAlpha || c.isDigit || c = '-'

/-- Match `HTML_TAGNAME` at `j`; returns the end position. -/
def matchTagName (src : Chars) (j : Nat) : Option Nat :=
  if (charAt src j).isAlpha then
    some (j + 1 + countLeadingP isTagNameChar (src.drop (j + 1)))
  else none

/-- Whether `src` contains the literal `w` starting at `j`. -/
def literalAt (src : Chars) (j : Nat) (w : Chars) : Bool :=
  (src.drop j).take w.length = w

/-- The delimiter `(?:[ \t]+|\n|$)` after a block tag name. -/
def delimAfter (src : Chars) (j : Nat) : Option Nat :=
  let w := countLeadingP isSpTab (src.drop j)
  if 1 ≤ w then some (j + w)
  else if charAt src j = '\n' then some (j + 1)
  else if j = src.length then some j
  else none

/-- The `</?(BLOCK_TAGS|PRE_TAGS)(?:[ \t]+|\n|$)` alternative of
`block_html`, with the tag alternatives tried in list order. -/
def tagAltMatch (src : Chars) (p : Nat) : Option Nat :=
  if charAt src p = '<' then
    let q := if charAt src (p + 1) = '/' then p + 2 else p + 1
    (BLOCK_TAGS ++ PRE_TAGS).foldl
      (fun acc tag =>
        match acc with
        | some e => some e
        | none =>
          if literalAt src q (str tag) then delimAfter src (q + (str tag).length)
          else none)
      none
  else none

/-- The shared trailing alternatives of `raw_html`/`block_html`:
`<!--`, `<\?`, `<![A-Z]`, `<!\[CDATA\[`, tried in this order. -/
def bangAltMatch (src : Chars) (p : Nat) : Option Nat :=
  if literalAt src p (str "<!--") then some (p + 4)
  else if literalAt src p (str "<?") then some (p + 2)
  else if charAt src p = '<' ∧ charAt src (p + 1) = '!' ∧ (charAt src (p + 2)).isUpper then
    some (p + 3)
  else if literalAt src p (str "<![CDATA[") then some (p + 9)
  else none

/-- Rule `raw_html`: `^ {0,3}(</?HTML_TAGNAME|<!--|<\?|<![A-Z]|<!\[CDATA\[)`. -/
def matchRawHtml (src : Chars) (i : Nat) : Option ReMatch :=
  if isLineStart src i then
    let sp := countLeading ' ' (src.drop i)
    if sp ≤ 3 ∧ charAt src (i + sp) = '<' then
      let p := i + sp
      let tagEnd :=
        let q := if charAt src (p + 1) = '/' then p + 2 else p + 1
        matchTagName src q
      match tagEnd with
      | some e => some ⟨"raw_html", i, e, [("raw_html", slice src i e)]⟩
      | none =>
        match bangAltMatch src p with
        | some e => some ⟨"raw_html", i, e, [("raw_html", slice src i e)]⟩
        | none => none
    else none
  else none

/-- Rule `block_html`:
`^ {0,3}(?:</?TAGS(?:[ \t]+|\n|$)|<!--|<\?|<![A-Z]|<!\[CDATA\[)`. -/
def matchBlockHtml (src : Chars) (i : Nat) : Option ReMatch :=
  if isLineStart src i then
    let sp := countLeading ' ' (src.drop i)
    if sp ≤ 3 ∧ charAt src (i + sp) = '<' then
      let p := i + sp
      match tagAltMatch src p with
      | some e => some ⟨"block_html", i, e, [("block_html", slice src i e)]⟩
      | none =>
        match bangAltMatch src p with
        | some e => some ⟨"block_html", i, e, [("block_html", slice src i e)]⟩
        | none => none
    else none
  else none

/-- Dispatch from a rule name (a key of `SPECIFICATION`) to its matcher. -/
def matchRuleAt (name : String) (src : Chars) (i : Nat) : Option ReMatch :=
  if name = "blank_line" then matchBlankLine src i
  else if name = "axt_heading" then matchAxtHeading src i
  else if name = "setex_heading" then matchSetexHeading src i
  else if name = "fenced_code" then matchFencedCode src i
  else if name = "indent_code" then matchIndentCode src i
  else if name = "thematic_break" then matchThematicBreak src i
  else if name = "ref_link" then matchRefLink src i
  else if name = "block_quote" then matchBlockQuote src i
  else if name = "list" then matchList src i
  else if name = "block_html" then matchBlockHtml src i
  else if name = "raw_html" then matchRawHtml src i
  else none

/-- Try the rules of a compiled alternation, in order, at one position
(the semantics of Python alternation at a fixed position). -/
def tryRulesAt (rules : List String) (src : Chars) (i : Nat) : Option ReMatch :=
  match rules with
  | [] => none
  | r :: rs =>
    match matchRuleAt r src i with
    | some m => some m
    | none => tryRulesAt rs src i

/-- Scan positions left to right (the semantics of `re.search`). -/
def scSearchGo (rules : List String) (src : Chars) : Nat → Nat → Option ReMatch
  | 0, _ => none
  | f + 1, i =>
    if src.length < i then none
    else
      match tryRulesAt rules src i with
      | some m => some m
      | none => scSearchGo rules src f (i + 1)

/-- `sc.search(src, pos)`: the leftmost match of the alternation at or
after `pos`, alternatives tried in rule order at each position. -/
def scSearch (rules : List String) (src : Chars) (pos : Nat) : Option ReMatch :=
  scSearchGo rules src (src.length + 1 - pos) pos

/-- `sc.match(src, pos)`: the alternation anchored at `pos`. -/
def scMatchAt (rules : List String) (src : Chars) (pos : Nat) : Option ReMatch :=
  tryRulesAt rules src pos

/-! ### The parser object -/

/-- `BlockParser.RULE_NAMES` of the source: note that `list` is commented
out there, and `block_html` is absent. -/
def RULE_NAMES : List String :=
  ["blank_line", "fenced_code", "indent_code", "axt_heading", "setex_heading",
   "thematic_break", "block_quote", "ref_link", "raw_html"]

/-- The keys of `BlockParser.SPECIFICATION` (the patterns themselves are
the matchers above). -/
def SPEC_KEYS : List String :=
  ["blank_line", "axt_heading", "setex_heading", "fenced_code", "indent_code",
   "thematic_break", "ref_link", "block_quote", "list", "block_html", "raw_html"]

/-- The `BlockParser` instance data: rule configuration, the nesting limit,
the compiled-matcher cache `__sc` (a compiled matcher is identified with
its rule-name list), the `specification` key set, and the key set of the
`__methods` dict. -/
structure BlockParser where
  rules : List String
  blockQuoteRules : List String
  listRules : List String
  maxNestedLevel : Nat
  scCache : List (String × List String)
  specification : List String
  methods : List String

/-- `BlockParser.__init__` with all defaults. -/
def defaultBP : BlockParser :=
  { rules := RULE_NAMES, blockQuoteRules := RULE_NAMES, listRules := RULE_NAMES,
    maxNestedLevel := 6, scCache := [], specification := SPEC_KEYS,
    methods := RULE_NAMES }

/-- The cache key of `compile_sc`: `'$'` for the active rules, otherwise
the joined rule names. -/
def cacheKey (rules? : Option (List String)) : String :=
  match rules? with
  | none => "$"
  | some rs => String.intercalate "|" rs

/-- `BlockParser.compile_sc`: return the cached matcher for the key when
present; otherwise compile one from `specification` (a missing key raises
`KeyError`) and cache it. -/
def compile_sc (p : BlockParser) (rules? : Option (List String)) :
    Except PyError (List String × BlockParser) :=
  let key := cacheKey rules?
  let rules := rules?.getD p.rules
  match p.scCache.lookup key with
  | some sc => .ok (sc, p)
  | none =>
    match rules.find? (fun k => !p.specification.contains k) with
    | some k => .error (.keyError k)
    | none => .ok (rules, { p with scCache := p.scCache ++ [(key, rules)] })

/-- `BlockParser.register_rule(name, func, before)`: record the handler in
`__methods`, then insert `name` immediately before `before` in `rules`
(via `list.index`/`list.insert`; a missing `before` raises `ValueError`),
or append it when `before` is absent or empty.  The source never touches
`self.__sc` here. -/
def register_rule (p : BlockParser) (name : String) (before : Option String) :
    Except PyError BlockParser :=
  let p1 := { p with methods := p.methods ++ [name] }
  match before with
  | some b =>
    if b.length ≠ 0 then
      if b ∈ p1.rules then
        .ok { p1 with
              rules := p1.rules.take (p1.rules.indexOf b) ++
                       name :: p1.rules.drop (p1.rules.indexOf b) }
      else .error (.valueError "x not in list")
    else .ok { p1 with rules := p1.rules ++ [name] }
  | none => .ok { p1 with rules := p1.rules ++ [name] }

/-! ### Non-recursive rule handlers -/

/-- Run `state.append_paragraph()` and package Python truthiness of the
returned position together with the (possibly mutated) state. -/
def apStep (st : BlockState) : Option Nat × BlockState :=
  match st.appendParagraph with
  | some (pos, st') => (some pos, st')
  | none => (none, st)

/-- `BlockParser.parse_blank_line`. -/
def parse_blank_line (m : ReMatch) (st : BlockState) : Option Nat × BlockState :=
  (some m.endPos, st.appendToken (.mk "blank_line" none none [] [] none))

/-- `BlockParser.parse_thematic_break` (the `$` does not count the newline,
hence the `+ 1`). -/
def parse_thematic_break (m : ReMatch) (st : BlockState) : Option Nat × BlockState :=
  (some (m.endPos + 1), st.appendToken (.mk "thematic_break" none none [] [] none))

/-- `_INDENT_CODE_TRIM`: remove one to four leading spaces from every
line. -/
def indentCodeTrim (code : Chars) : Chars :=
  joinNl ((splitNl code).map (fun l => l.drop (min 4 (countLeading ' ' l))))

/-- Python `str.strip(chr(10))`: strip newlines from both ends. -/
def stripNl (l : Chars) : Chars :=
  ((l.dropWhile (fun c => c = '\n')).reverse.dropWhile (fun c => c = '\n')).reverse

/-- `BlockParser.parse_indent_code`: part of an open paragraph when there
is one; otherwise emit a `block_code` token (no `fenced` key). -/
def parse_indent_code (m : ReMatch) (st : BlockState) : Option Nat × BlockState :=
  let (ep, st1) := apStep st
  if pyTruthy ep then (ep, st1)
  else
    let code := (m.group? "indent_code").getD []
    let code := expand_leading_tab 4 code
    let code := indentCodeTrim code
    let code := escape (stripNl code)
    (some m.endPos, st1.appendToken (.mk "block_code" (some code) none [] [] none))

/-- The closing-fence pattern `^ {0,3}c{n,}[ \t]*(?:\n|$)` at position
`i`. -/
def matchEndFence (src : Chars) (i : Nat) (c : Char) (n : Nat) : Option Nat :=
  if isLineStart src i then
    let line := takeToNl (src.drop i)
    let sp := countLeading ' ' line
    let k := countLeading c (line.drop sp)
    if sp ≤ 3 ∧ n ≤ k ∧ (line.drop (sp + k)).all isSpTab then
      some (lineEndIncl src i)
    else none
  else none

/-- The scan of `_end.search`: positions left to right from `i`. -/
def endFenceScan (src : Chars) (c : Char) (n : Nat) : Nat → Nat → Option (Nat × Nat)
  | 0, _ => none
  | f + 1, i =>
    if src.length < i then none
    else
      match matchEndFence src i c n with
      | some e => some (i, e)
      | none => endFenceScan src c n f (i + 1)

/-- `_end.search(state.src, cursor_start)`: the first closing-fence line at
or after `pos`, with its end. -/
def endFenceSearch (src : Chars) (c : Char) (n : Nat) (pos : Nat) : Option (Nat × Nat) :=
  endFenceScan src c n (src.length + 1 - pos) pos

/-- The `_trim_pattern` step of `parse_fenced_code`: remove up to `k`
leading spaces from every line. -/
def fenceIndentTrim (k : Nat) (code : Chars) : Chars :=
  joinNl ((splitNl code).map (fun l => l.drop (min k (countLeading ' ' l))))

/-- The `block_code` token built by `parse_fenced_code` from the raw
fenced content, the opening indentation and the info string; carries the
extra `fenced: True` field. -/
def fencedTok (spaces info code : Chars) : Token :=
  let code := if ¬ spaces.isEmpty ∧ ¬ code.isEmpty then
      fenceIndentTrim spaces.length code
    else code
  let attrs := if info.isEmpty then ([] : List (String × AttrV))
    else [("info", AttrV.s (safe_entity (stripChars (unescape_char info))))]
  .mk "block_code" (some (escape code)) none attrs [] (some true)

/-- `BlockParser.parse_fenced_code`: reject a backtick fence whose info
string contains a backtick; otherwise find the closing fence from
`m.end()` (note the source uses `m.end()`, which still points at the
opening line's newline) or consume to the end of the buffer. -/
def parse_fenced_code (m : ReMatch) (st : BlockState) : Option Nat × BlockState :=
  let spaces := (m.group? "fenced_1").getD []
  let marker := (m.group? "fenced_2").getD []
  let info := (m.group? "fenced_3").getD []
  let c := marker.headD nulChar
  if ¬ info.isEmpty ∧ c = btick ∧ info.contains btick then (none, st)
  else
    let cursorStart := m.endPos
    match endFenceSearch st.src c marker.length cursorStart with
    | some (s, e) =>
      (some e, st.appendToken (fencedTok spaces info (slice st.src cursorStart s)))
    | none =>
      (some st.cursorMax,
       st.appendToken (fencedTok spaces info (sliceFrom st.src cursorStart)))

/-- `_AXT_HEADING_TRIM`: remove a trailing run of `#` preceded by
whitespace (or forming the whole text). -/
def axtHeadingTrim (text : Chars) : Chars :=
  let r := text.reverse
  let hs := countLeading '#' r
  if hs = 0 then text
  else
    let r2 := r.drop hs
    let ws := countLeadingP isPyWs r2
    if 1 ≤ ws then (r2.drop ws).reverse
    else if r2.isEmpty then []
    else text

/-- `BlockParser.parse_axt_heading`. -/
def parse_axt_heading (m : ReMatch) (st : BlockState) : Option Nat × BlockState :=
  let level : Int := ((m.group? "axt_1").getD []).length
  let text := stripChars ((m.group? "axt_2").getD [])
  let text := if text.isEmpty then text else axtHeadingTrim text
  (some (m.endPos + 1),
   st.appendToken (.mk "heading" none (some text) [("level", .n level)] [] none))

/-- `BlockParser.parse_setex_heading`: rewrite the last token in place when
it is a paragraph (its `type` becomes `heading` and its `attrs` are
replaced by the level); otherwise signal no match. -/
def parse_setex_heading (m : ReMatch) (st : BlockState) : Option Nat × BlockState :=
  match st.tokens.getLast? with
  | some tok =>
    if tok.type = "paragraph" then
      let level : Int := if (m.group? "setext_1").getD [] = ['='] then 1 else 2
      let tok' : Token := .mk "heading" tok.raw tok.text [("level", .n level)] tok.children tok.fenced
      (some (m.endPos + 1), { st with tokens := setLast st.tokens tok' })
    else (none, st)
  | none => (none, st)

/-- `BLANK_LINE.search(src, pos)`: the start of the first blank-line match
at or after `pos`. -/
def blankLineSearchStart (src : Chars) (pos : Nat) : Option Nat :=
  (scSearch ["blank_line"] src pos).map (fun m => m.start)

/-- `_BLANK_TO_LINE.match(src, pos)`: `[ \t]*\n` anchored at `pos`. -/
def blankToLineMatch (src : Chars) (pos : Nat) : Option Nat :=
  let w := countLeadingP isSpTab (src.drop pos)
  if charAt src (pos + w) = '\n' then some (pos + w + 1) else none

/-- The body of `parse_ref_link` after the `append_paragraph` check
(lines 248–289 of the source), split out for the proofs below. -/
def refLinkBody (m : ReMatch) (st1 : BlockState) : Option Nat × BlockState :=
    let key := unikey ((m.group? "link_1").getD [])
    if key.isEmpty then (none, st1)
    else
      match parse_link_href st1.src m.endPos with
      | none => (none, st1)
      | some (href0, hrefPos0) =>
        let maxPos :=
          match blankLineSearchStart st1.src hrefPos0 with
          | some s => s
          | none => st1.cursorMax
        let (title0, titlePos0) :=
          match parse_link_title st1.src hrefPos0 maxPos with
          | some (t, tp) => ((some t : Option Chars), (some tp : Option Nat))
          | none => (none, none)
        let (title1, titlePos1) :=
          if pyTruthy titlePos0 then
            match blankToLineMatch st1.src (titlePos0.getD 0) with
            | some e => (title0, some e)
            | none => ((none : Option Chars), (none : Option Nat))
          else (title0, titlePos0)
        let (href1, hrefPos1) :=
          if titlePos1 = none then
            match blankToLineMatch st1.src hrefPos0 with
            | some e => ((some href0 : Option Chars), (some e : Option Nat))
            | none => (none, none)
          else (some href0, some hrefPos0)
        let endPos := if pyTruthy titlePos1 then titlePos1
          else if pyTruthy hrefPos1 then hrefPos1 else none
        match endPos with
        | none => (none, st1)
        | some e =>
          let st2 :=
            if (st1.refLinks.lookup key).isNone then
              let attrs := [("url", AttrV.s (escape_url (unescape_char (href1.getD []))))]
              let attrs := if (title1.getD []).isEmpty then attrs
                else attrs ++ [("title", AttrV.s (safe_entity (title1.getD [])))]
              { st1 with refLinks := st1.refLinks ++ [(key, attrs)] }
            else st1
          (some e, st2)

/-- `BlockParser.parse_ref_link`: may not interrupt a paragraph; parse the
destination and optional title; a malformed definition signals no match;
a well-formed one stores its attributes under the normalized key only
when the key is absent (first definition wins) and emits no token. -/
def parse_ref_link (m : ReMatch) (st : BlockState) : Option Nat × BlockState :=
  let (ep, st1) := apStep st
  if pyTruthy ep then (ep, st1)
  else refLinkBody m st1

/-! ### HTML block handlers -/

/-- Scan for a literal substring (`str.find(w, start)`). -/
def findSubGo (src w : Chars) : Nat → Nat → Option Nat
  | 0, _ => none
  | f + 1, j =>
    if j + w.length ≤ src.length then
      if literalAt src j w then some j else findSubGo src w f (j + 1)
    else none

/-- `str.find(w, start)` (`none` models `-1`). -/
def findSub (src w : Chars) (start : Nat) : Option Nat :=
  findSubGo src w (src.length + 1) start

/-- `_parse_html_to_end(state, end_marker, start_pos)`. -/
def parseHtmlToEnd (st : BlockState) (endMarker : Chars) (startPos : Nat) :
    Option Nat × BlockState :=
  match findSub st.src endMarker startPos with
  | none =>
    let text := sliceFrom st.src st.cursor
    (some st.cursorMax, st.appendToken (.mk "block_html" (some text) none [] [] none))
  | some mp =>
    let text := st.getText mp
    let st1 := { st with cursor := mp }
    let e := st1.findLineEnd
    let text := text ++ st1.getText e
    (some e, st1.appendToken (.mk "block_html" (some text) none [] [] none))

/-- `_parse_html_to_newline(state, BLANK_LINE)`. -/
def parseHtmlToNewline (st : BlockState) : Option Nat × BlockState :=
  match blankLineSearchStart st.src st.cursor with
  | some s =>
    (some s, st.appendToken (.mk "block_html" (some (st.getText s)) none [] [] none))
  | none =>
    (some st.cursorMax,
     st.appendToken (.mk "block_html" (some (sliceFrom st.src st.cursor)) none [] [] none))

/-- Modelled from the spec: `_OPEN_TAG_END` — tag attributes (no stray
angle brackets), a closing `>`, then only blanks to the line end, matched
inside `src[a:b]`. -/
def matchOpenTagEnd (src : Chars) (a b : Nat) : Bool :=
  let seg := slice src a b
  let k := countLeadingP (fun c => c ≠ '>' && c ≠ '\n') seg
  charAt seg k = '>' &&
  (let rest := seg.drop (k + 1)
   let w := countLeadingP isSpTab rest
   rest.drop w = [] || rest.drop w = ['\n'])

/-- Modelled from the spec: `_CLOSE_TAG_END` — `[ \t]*>[ \t]*(?:\n|$)`
matched inside `src[a:b]`. -/
def matchCloseTagEnd (src : Chars) (a b : Nat) : Bool :=
  let seg := slice src a b
  let w1 := countLeadingP isSpTab seg
  charAt seg w1 = '>' &&
  (let rest := seg.drop (w1 + 1)
   let w := countLeadingP isSpTab rest
   rest.drop w = [] || rest.drop w = ['\n'])

/-- Rule 7 of `parse_raw_html` (may not interrupt a paragraph). -/
def rawHtmlRule7 (m : ReMatch) (st : BlockState) (openTag closeTag : Option Chars) :
    Option Nat × BlockState :=
  let (ep, st1) := apStep st
  if pyTruthy ep then (ep, st1)
  else
    let startPos := m.endPos
    let e := st1.findLineEnd
    if (openTag.isSome ∧ matchOpenTagEnd st1.src startPos e) ∨
       (closeTag.isSome ∧ matchCloseTagEnd st1.src startPos e) then
      parseHtmlToNewline st1
    else (none, st1)

/-- `BlockParser.parse_raw_html`. -/
def parse_raw_html (m : ReMatch) (st : BlockState) : Option Nat × BlockState :=
  let marker := stripChars ((m.group? m.rule).getD [])
  if marker = str "<!--" then parseHtmlToEnd st (str "-->") m.endPos
  else if marker = str "<?" then parseHtmlToEnd st (str "?>") m.endPos
  else if marker = str "<![CDATA[" then parseHtmlToEnd st (str "]]>") m.endPos
  else if literalAt marker 0 (str "<!") then parseHtmlToEnd st (str ">") m.endPos
  else if literalAt marker 0 (str "</") then
    let closeTag := (marker.drop 2).map Char.toLower
    if BLOCK_TAGS.contains (String.mk closeTag) then parseHtmlToNewline st
    else rawHtmlRule7 m st none (some closeTag)
  else
    let openTag := (marker.drop 1).map Char.toLower
    if PRE_TAGS.contains (String.mk openTag) then
      parseHtmlToEnd st (str "</" ++ openTag ++ [.ofNat 62]) m.endPos
    else if BLOCK_TAGS.contains (String.mk openTag) then parseHtmlToNewline st
    else rawHtmlRule7 m st (some openTag) none

/-- `BlockParser.parse_block_html` simply defers to `parse_raw_html`. -/
def parse_block_html (m : ReMatch) (st : BlockState) : Option Nat × BlockState :=
  parse_raw_html m st

/-! ### List handlers -/

/-- A possible handler return value: an integer cursor, or the literal
`True` that `parse_list` returns. -/
inductive PyRet where
  | int (n : Nat)
  | bool (b : Bool)
deriving Repr, DecidableEq

/-- `_get_list_bullet(c)`: the continuation bullet pattern (kept as its
pattern text). -/
def _get_list_bullet (c : Char) : String :=
  if c = '.' then "\\d{0,9}\\."
  else if c = ')' then "\\d{0,9}\\)"
  else if c = '*' then "\\*"
  else if c = '+' then "\\+"
  else "-"

/-- `_compile_list_item_pattern(bullet, leading_width)`: the item pattern,
kept as its bullet and capped width. -/
def _compile_list_item_pattern (bullet : String) (leadingWidth : Nat) : String × Nat :=
  (bullet, min leadingWidth 3)

/-- `_LINE_HAS_TEXT.match(text)`: leading spaces followed by a
non-whitespace character; returns the space count. -/
def lineHasTextSp (l : Chars) : Option Nat :=
  let sp := countLeading ' ' l
  if sp < l.length ∧ ¬ isPyWs (charAt l sp) then some sp else none

/-- `_compile_continue_width(text, leading_width)`. -/
def _compile_continue_width (text : Chars) (leadingWidth : Nat) : Chars × Nat :=
  let text := expand_leading_tab 3 text
  let text := expand_tab text
  match lineHasTextSp text with
  | some sp =>
    let spaceWidth := if literalAt text 0 (str "     ") then 1 else sp
    (text.drop spaceWidth, leadingWidth + spaceWidth)
  | none => ([], leadingWidth + 1)

/-- `BlockParser._parse_list_item`, lines 425–462 of the source: after the
prefix computations, line 439 builds `pairs` from `self.THEMATIC_BREAK`,
`self.FENCED_CODE.pattern`, `self.AXT_HEADING` and `self.BLOCK_QUOTE`;
the class defines none of these attributes (`FENCED_CODE` exists but is a
plain string with no `.pattern`), so evaluating the first tuple raises
`AttributeError` on every call. -/
def _parse_list_item (parentState : BlockState) (mtch : ReMatch) :
    Except PyError Empty :=
  let spaceWidth := ((mtch.group? "list_1").getD []).length
  let marker := (mtch.group? "list_2").getD []
  let leadingWidth := spaceWidth + marker.length
  let bullet := _get_list_bullet (marker.getLastD ' ')
  let _ := _compile_list_item_pattern bullet leadingWidth
  let _ := _compile_continue_width ((mtch.group? "list_3").getD []) leadingWidth
  let _ := parentState.line + parentState.lineRoot
  .error (.attributeError "THEMATIC_BREAK")

/-- `int(marker[:-1])` for a digit string. -/
def natOfDigits (l : Chars) : Nat :=
  l.foldl (fun a c => a * 10 + (c.toNat - 48)) 0

/-- `BlockParser.parse_list`, lines 377–423: empty items and ordered items
not starting at 1 may not interrupt a paragraph (the line is appended to
the open paragraph and its cursor returned); otherwise compute the child
rule set (`list_rules` minus `list` at or beyond `max_nested_level` —
`list.remove` raises `ValueError` when `list` is not in the configured
rules) and iterate `_parse_list_item`, whose first call raises. -/
def parse_list (p : BlockParser) (m : ReMatch) (st : BlockState) :
    Except PyError (BlockParser × Option PyRet × BlockState) := do
  let text := (m.group? "list_3").getD []
  let (ep1, st1) :=
    if (stripChars text).isEmpty then apStep st
    else (none, st)
  if pyTruthy ep1 then
    return (p, some (.int (ep1.getD 0)), st1)
  let marker := (m.group? "list_2").getD []
  let ordered := decide (1 < marker.length)
  let startN := natOfDigits marker.dropLast
  let (ep2, st2) :=
    if ordered ∧ startN ≠ 1 then apStep st1
    else (none, st1)
  if pyTruthy ep2 then
    return (p, some (.int (ep2.getD 0)), st2)
  let depth := st2.depth
  let rules ←
    if p.maxNestedLevel ≤ depth then
      if p.listRules.contains "list" then pure (p.listRules.erase "list")
      else Except.error (.valueError "list.remove(x): x not in list")
    else pure p.listRules
  let _ := rules
  let _ := depth
  match _parse_list_item st2 m with
  | .error e => .error e
  | .ok a => a.elim

/-! ### Block quote helpers -/

/-- `_BLOCK_QUOTE_TRIM`: `^ {0,1}` removed from every line. -/
def blockQuoteTrim (text : Chars) : Chars :=
  joinNl ((splitNl text).map (fun l => l.drop (min 1 (countLeading ' ' l))))

/-- `_BLOCK_QUOTE_LEADING`: `^ *>` removed from every line that has it. -/
def blockQuoteLeadingSub (text : Chars) : Chars :=
  joinNl ((splitNl text).map (fun l =>
    let sp := countLeading ' ' l
    if charAt l sp = '>' then l.drop (sp + 1) else l))

/-- One line of `STRICT_BLOCK_QUOTE`: ` {0,3}>[^\n]*(?:\n|$)` at `j`. -/
def strictQuoteLine (src : Chars) (j : Nat) : Option Nat :=
  let sp := countLeading ' ' (src.drop j)
  if sp ≤ 3 ∧ charAt src (j + sp) = '>' then
    some (lineEndIncl src (j + sp + 1))
  else none

/-- Greedy `( {0,3}>[^\n]*(?:\n|$))+` anchored at `j`. -/
def strictQuoteGo (src : Chars) : Nat → Nat → Option Nat
  | 0, _ => none
  | f + 1, j =>
    match strictQuoteLine src j with
    | none => none
    | some e =>
      match strictQuoteGo src f e with
      | some e2 => some e2
      | none => some e

/-- `_LINE_BLANK_END` (`\n[ \t]*\n$`, no multiline flag) matching at
position `i` of `q`: the closing `$` is the end of the text or just
before a final newline. -/
def lineBlankEndAt (q : Chars) (i : Nat) : Bool :=
  (charAt q i == '\n') &&
  (let w := countLeadingP isSpTab (q.drop (i + 1))
   let j := i + 1 + w
   (charAt q j == '\n') &&
   (decide (j + 1 = q.length) ||
    (decide (j + 2 = q.length) && (charAt q (j + 1) == '\n'))))

/-- `_LINE_BLANK_END.search(q)`: does the text end in a blank line? -/
def lineBlankEnd (q : Chars) : Bool :=
  (List.range q.length).any (lineBlankEndAt q)

/-! ### Driver and block quote

`parse` and `parse_block_quote` are mutually recursive in the source
(through the container's child state); the knot is tied below by a fuel
parameter that bounds only the container nesting, so every definition
stays structurally recursive and computes by reduction. -/

/-- Dispatch of `parse_method` for every `__methods` key except
`block_quote` (the one recursive handler, handled by its caller); any
other name — `list`, `block_html`, or an externally registered rule —
raises `KeyError` because `__methods` is built from `RULE_NAMES`. -/
def dispatchBasic (m : ReMatch) (p : BlockParser) (st : BlockState) :
    Except PyError (BlockParser × Option Nat × BlockState) :=
  if m.rule = "blank_line" then
    let (e, st') := parse_blank_line m st; .ok (p, e, st')
  else if m.rule = "fenced_code" then
    let (e, st') := parse_fenced_code m st; .ok (p, e, st')
  else if m.rule = "indent_code" then
    let (e, st') := parse_indent_code m st; .ok (p, e, st')
  else if m.rule = "axt_heading" then
    let (e, st') := parse_axt_heading m st; .ok (p, e, st')
  else if m.rule = "setex_heading" then
    let (e, st') := parse_setex_heading m st; .ok (p, e, st')
  else if m.rule = "thematic_break" then
    let (e, st') := parse_thematic_break m st; .ok (p, e, st')
  else if m.rule = "ref_link" then
    let (e, st') := parse_ref_link m st; .ok (p, e, st')
  else if m.rule = "raw_html" then
    let (e, st') := parse_raw_html m st; .ok (p, e, st')
  else .error (.keyError m.rule)

/-- The `while` loop of `parse_block_quote`'s lazy-continuation branch
(lines 321–352): consume strict quote runs; after a blank line inside the
quote stop; otherwise try the break rules — the source passes the match
straight to `parse_method`, so a non-matching line raises
`AttributeError` (`None.lastgroup`), and a matched break rule whose
handler returns no cursor reaches `self.find_line_end()` /
`self.get_text()`, attributes `BlockParser` does not have. -/
def quoteLoop (breakSc : List String) : Nat → BlockParser → BlockState → Bool → Chars →
    Except PyError (BlockParser × BlockState × Chars × Option Nat)
  | 0, _, _, _, _ => .error (.valueError "fuel")
  | f + 1, p, st, prevBlank, text =>
    if st.cursor < st.cursorMax then
      match strictQuoteGo st.src (st.src.length + 1) st.cursor with
      | some e =>
        let quote := slice st.src st.cursor e
        let quote := blockQuoteLeadingSub quote
        let quote := expand_leading_tab 3 quote
        let quote := blockQuoteTrim quote
        let text := text ++ quote
        let st := { st with cursor := e }
        let prevBlank := if (stripChars quote).isEmpty then true else lineBlankEnd quote
        quoteLoop breakSc f p st prevBlank text
      | none =>
        if prevBlank then .ok (p, st, text, none)
        else
          match scMatchAt breakSc st.src st.cursor with
          | none => .error (.attributeError "lastgroup")
          | some m => do
            let (p, ep, st) ← dispatchBasic m p st
            if pyTruthy ep then .ok (p, st, text, ep)
            else .error (.attributeError "find_line_end")
    else .ok (p, st, text, none)

/-- `BlockParser.parse_block_quote` (lines 291–375), parameterized by the
recursive `parse` used on the child state. -/
def parse_block_quote
    (rec : BlockParser → BlockState → Option (List String) →
           Except PyError (BlockParser × BlockState))
    (p : BlockParser) (m : ReMatch) (st : BlockState) :
    Except PyError (BlockParser × Option Nat × BlockState) := do
  let text := (m.group? "quote_1").getD [] ++ ['\n']
  let text := expand_leading_tab 3 text
  let text := blockQuoteTrim text
  let (sc3, p) ← compile_sc p (some ["blank_line", "indent_code", "fenced_code"])
  let requireMarker := (scMatchAt sc3 text 0).isSome
  let st := { st with cursor := m.endPos + 1 }
  let (p, st, text, endPos?) ←
    if requireMarker then
      match strictQuoteGo st.src (st.src.length + 1) st.cursor with
      | some e =>
        let quote := slice st.src st.cursor e
        let quote := blockQuoteLeadingSub quote
        let quote := expand_leading_tab 3 quote
        let quote := blockQuoteTrim quote
        pure (p, { st with cursor := e }, text ++ quote, (none : Option Nat))
      | none => pure (p, st, text, (none : Option Nat))
    else do
      let (breakSc, p) ← compile_sc p
        (some ["blank_line", "thematic_break", "fenced_code", "block_html"])
      quoteLoop breakSc (st.src.length + 2) p st false text
  let text := expand_tab text
  let child := st.childState.process text
  let rules ←
    if p.maxNestedLevel ≤ st.depth then
      if p.blockQuoteRules.contains "block_quote" then
        pure (p.blockQuoteRules.erase "block_quote")
      else Except.error (.valueError "list.remove(x): x not in list")
    else pure p.blockQuoteRules
  let (p, child') ← rec p child (some rules)
  let st := { st with refLinks := child'.refLinks }
  let tok := Token.mk "block_quote" none none [] child'.tokens none
  if pyTruthy endPos? then
    .ok (p, endPos?, st.prependToken tok)
  else
    .ok (p, some st.cursor, st.appendToken tok)

/-- `BlockParser.parse_method(m, state)` with the recursive `parse` for
the `block_quote` handler; `None` in place of a match raises
`AttributeError` (`None.lastgroup`). -/
def parse_method
    (rec : BlockParser → BlockState → Option (List String) →
           Except PyError (BlockParser × BlockState))
    (p : BlockParser) (m? : Option ReMatch) (st : BlockState) :
    Except PyError (BlockParser × Option Nat × BlockState) :=
  match m? with
  | none => .error (.attributeError "lastgroup")
  | some m =>
    if m.rule = "block_quote" then parse_block_quote rec p m st
    else dispatchBasic m p st

/-- The `while` loop of `BlockParser.parse` (lines 574–591): search for
the next rule match, flush intervening text as paragraph material,
dispatch; a handler that returns no new cursor falls into the branch that
evaluates the undefined name `pos` (line 590), a `NameError`. -/
def parseGo
    (rec : BlockParser → BlockState → Option (List String) →
           Except PyError (BlockParser × BlockState))
    (sc : List String) : Nat → BlockParser → BlockState →
    Except PyError (BlockParser × BlockState)
  | 0, _, _ => .error (.valueError "fuel")
  | f + 1, p, st =>
    if st.cursor < st.cursorMax then
      match scSearch sc st.src st.cursor with
      | none => .ok (p, st)
      | some m => do
        let st :=
          if st.cursor < m.start then
            { st.addParagraph (st.getText m.start) with cursor := m.start }
          else st
        let (p, ep, st) ← parse_method rec p (some m) st
        if pyTruthy ep then parseGo rec sc f p { st with cursor := ep.getD 0 }
        else
          let _ := st.findLineEnd
          .error (.nameError "pos")
    else .ok (p, st)

/-- `BlockParser.parse(state, rules)` (lines 571–596), parameterized by
the recursive `parse` for container children. -/
def parseCore
    (rec : BlockParser → BlockState → Option (List String) →
           Except PyError (BlockParser × BlockState))
    (p : BlockParser) (st : BlockState) (rules? : Option (List String)) :
    Except PyError (BlockParser × BlockState) := do
  let (sc, p) ← compile_sc p rules?
  let (p, st) ← parseGo rec sc (st.src.length + 2) p st
  if st.cursor < st.cursorMax then
    .ok (p, { st.addParagraph (sliceFrom st.src st.cursor) with cursor := st.cursorMax })
  else .ok (p, st)

/-- `BlockParser.parse`, the container-nesting knot tied by fuel (the fuel
only bounds `block_quote` nesting, which the source bounds by
`max_nested_level`). -/
def parse : Nat → BlockParser → BlockState → Option (List String) →
    Except PyError (BlockParser × BlockState)
  | 0, _, _, _ => .error (.valueError "fuel")
  | f + 1, p, st, rules? => parseCore (parse f) p st rules?

/-- Parse a whole document with a fresh default parser. -/
def parseDoc (s : Chars) : Except PyError (BlockParser × BlockState) :=
  parse 40 defaultBP (initState s) none

/-- The token stream of a whole-document parse. -/
def docTokens (s : Chars) : Except PyError (List Token) :=
  (parseDoc s).map (fun x => x.2.tokens)

/-! ### Specification-side predicate for the fenced-code claim -/

/-- The claim's description of a closing fence line for fence character `c`
and opening length `n`: a line start whose line is 0–3 spaces, then at
least `n` copies of `c`, then only blanks (the source regex allows
trailing spaces and tabs on the closing line). -/
def ClosingFenceLine (src : Chars) (i : Nat) (c : Char) (n : Nat) : Prop :=
  isLineStart src i = true ∧
  ∃ sp k t, sp ≤ 3 ∧ n ≤ k ∧
    takeToNl (src.drop i) = List.replicate sp ' ' ++ List.replicate k c ++ t ∧
    ∀ ch ∈ t, ch = ' ' ∨ ch = '\t'

/-! ### Concrete instances used by the claim theorems and witnesses -/

/-- The `list` match of `-` alone (an empty item). -/
def mListEmpty : ReMatch :=
  ⟨"list", 0, 1, [("list", str "-"), ("list_1", []), ("list_2", str "-"), ("list_3", [])]⟩

/-- A state over `-\n` whose last token is an open paragraph. -/
def stListEmpty : BlockState :=
  { initState (str "-\n") with tokens := [paragraphTok (str "x\n")] }

/-- The `list` match of `2. y` (ordered, start 2). -/
def mListTwo : ReMatch :=
  ⟨"list", 0, 4, [("list", str "2. y"), ("list_1", []), ("list_2", str "2."),
                  ("list_3", str " y")]⟩

/-- A state over `2. y\n` whose last token is an open paragraph. -/
def stListTwo : BlockState :=
  { initState (str "2. y\n") with tokens := [paragraphTok (str "x\n")] }

/-- The `list` match of `1. y` (ordered, start 1). -/
def mListOne : ReMatch :=
  ⟨"list", 0, 4, [("list", str "1. y"), ("list_1", []), ("list_2", str "1."),
                  ("list_3", str " y")]⟩

/-- A state over `1. y\n` whose last token is an open paragraph. -/
def stListOne : BlockState :=
  { initState (str "1. y\n") with tokens := [paragraphTok (str "x\n")] }

/-- The `list` match of `- y`. -/
def mListDash : ReMatch :=
  ⟨"list", 0, 3, [("list", str "- y"), ("list_1", []), ("list_2", str "-"),
                  ("list_3", str " y")]⟩

/-- A state over `- y\n` at the maximum nesting depth. -/
def stListDeep : BlockState := { initState (str "- y\n") with depthVal := 6 }

/-- A parser configured with `list` present in `list_rules` (so that
`rules.remove` in `parse_list` succeeds). -/
def bpListRules : BlockParser := { defaultBP with listRules := RULE_NAMES ++ ["list"] }

/-- The `list` match of `- a` at the head of `- a\n- b\n`. -/
def mListAB : ReMatch :=
  ⟨"list", 0, 3, [("list", str "- a"), ("list_1", []), ("list_2", str "-"),
                  ("list_3", str " a")]⟩

/-- A state over the two-item list document. -/
def stListAB : BlockState := initState (str "- a\n- b\n")

/-- The parser after `compile_sc(None)` has warmed the cache (witnessed in
the counterexample theorem). -/
def bpWarm : BlockParser := { defaultBP with scCache := [("$", RULE_NAMES)] }

/-- `bpWarm` after `register_rule('mathblock', fn)` with no `before`. -/
def bpWarmReg : BlockParser :=
  { bpWarm with rules := RULE_NAMES ++ ["mathblock"],
                methods := RULE_NAMES ++ ["mathblock"] }

/-- A fenced-code document for the C4 witness. -/
def srcC4 : Chars := str "~~~~\nab\n ~~~~~\nz\n"

/-- The state over `srcC4`. -/
def stC4 : BlockState := initState srcC4

/-- The `fenced_code` opening match of `srcC4` (four tildes at offset 0,
`m.end()` at the end of the opening line). -/
def mC4 : ReMatch :=
  ⟨"fenced_code", 0, 4, [("fenced_code", str "~~~~"), ("fenced_1", []),
                         ("fenced_2", str "~~~~"), ("fenced_3", [])]⟩

/-- A state whose `ref_links` already binds the normalized key `a`. -/
def stC5 : BlockState :=
  { initState (str "[a]: /new\nrest\n") with
    refLinks := [(str "a", [("url", AttrV.s (str "/old"))])] }

/-- The `ref_link` match at the head of `stC5.src`. -/
def mC5 : ReMatch :=
  ⟨"ref_link", 0, 4, [("ref_link", str "[a]:"), ("link_1", str "a")]⟩

/-- A minimal fenced document for the C10 witness. -/
def stC10f : BlockState := initState (str "~~~\nq\n~~~\n")

/-- Its `fenced_code` opening match. -/
def mC10f : ReMatch :=
  ⟨"fenced_code", 0, 3, [("fenced_code", str "~~~"), ("fenced_1", []),
                         ("fenced_2", str "~~~"), ("fenced_3", [])]⟩

/-- An indented-code document for the C10 witness. -/
def stC10i : BlockState := initState (str "    code\n")

/-- Its `indent_code` match (the whole buffer). -/
def mC10i : ReMatch :=
  ⟨"indent_code", 0, 9, [("indent_code", str "    code\n")]⟩

/-! ## Theorems for the claims -/

theorem countLeading_decomp (c : Char) (l : Chars) :
    l = List.replicate (countLeading c l) c ++ l.drop (countLeading c l) := by
  induction l with
  | nil => rfl
  | cons x xs ih =>
    by_cases h : x = c
    · subst h
      simp only [countLeading, if_pos rfl, List.replicate_succ, List.cons_append,
        List.drop_succ_cons]
      exact congrArg _ ih
    · simp [countLeading, h]

theorem countLeading_head_ne (c : Char) (t : Chars)
    (h : ∀ d, t.head? = some d → d ≠ c) : countLeading c t = 0 := by
  cases t with
  | nil => rfl
  | cons d ds => simp [countLeading, h d rfl]

theorem countLeading_replicate_append (c : Char) (m : Nat) (t : Chars)
    (h : ∀ d, t.head? = some d → d ≠ c) :
    countLeading c (List.replicate m c ++ t) = m := by
  induction m with
  | zero => simpa using countLeading_head_ne c t h
  | succ k ih => simp [List.replicate_succ, countLeading, ih]

theorem isSpTab_iff (d : Char) : isSpTab d = true ↔ d = ' ' ∨ d = '\t' := by
  simp [isSpTab]

theorem matchEndFence_iff (src : Chars) (i : Nat) (c : Char) (n : Nat)
    (hc : c ≠ ' ' ∧ c ≠ '\t') (hn : 1 ≤ n) (e : Nat) :
    matchEndFence src i c n = some e ↔
      ClosingFenceLine src i c n ∧ e = lineEndIncl src i := by
  set line := takeToNl (src.drop i) with hlineDef
  set sp := countLeading ' ' line with hspDef
  set k := countLeading c (line.drop sp) with hkDef
  constructor
  · intro h
    simp only [matchEndFence, ← hlineDef, ← hspDef, ← hkDef] at h
    split at h
    case isFalse => exact absurd h (by simp)
    case isTrue hls =>
      split at h
      case isFalse => exact absurd h (by simp)
      case isTrue hcond =>
        obtain ⟨hc1, hc2, hc3⟩ := hcond
        injection h with h
        have hd1 : line = List.replicate sp ' ' ++ line.drop sp := by
          rw [hspDef]; exact countLeading_decomp ' ' line
        have hd2 : line.drop sp = List.replicate k c ++ (line.drop sp).drop k := by
          rw [hkDef]; exact countLeading_decomp c (line.drop sp)
        have hd3 : (line.drop sp).drop k = line.drop (sp + k) := by
          rw [List.drop_drop, Nat.add_comm]
        refine ⟨⟨hls, sp, k, line.drop (sp + k), hc1, hc2, ?_, ?_⟩, h.symm⟩
        · rw [List.append_assoc, ← hd3, ← hd2, ← hd1]
        · intro ch hch
          exact (isSpTab_iff ch).mp (List.all_eq_true.mp hc3 ch hch)
  · rintro ⟨⟨hls, sp2, k2, t, hsp3, hnk, hdec, ht⟩, he⟩
    have hkpos : 0 < k2 := by omega
    have htne : ∀ d, t.head? = some d → d ≠ c := by
      intro d hd
      have hdm : d ∈ t := by
        cases t with
        | nil => simp at hd
        | cons x xs =>
          rw [List.head?_cons] at hd
          injection hd with hd
          exact hd ▸ List.mem_cons_self x xs
      rcases ht d hdm with h1 | h1 <;> subst h1
      · exact fun hcc => hc.1 hcc.symm
      · exact fun hcc => hc.2 hcc.symm
    have hrephead : ∀ d, (List.replicate k2 c ++ t).head? = some d → d ≠ ' ' := by
      intro d hd
      cases k2 with
      | zero => omega
      | succ m2 =>
        rw [List.replicate_succ, List.cons_append, List.head?_cons] at hd
        injection hd with hd
        exact fun hcc => hc.1 (hd.trans hcc)
    have hsp_eq : sp = sp2 := by
      rw [hspDef, hlineDef, hdec, List.append_assoc]
      exact countLeading_replicate_append ' ' sp2 _ hrephead
    have hdrop1 : line.drop sp = List.replicate k2 c ++ t := by
      rw [hsp_eq]
      conv_lhs => rw [hlineDef, hdec, List.append_assoc]
      have h2 := List.drop_left (List.replicate sp2 ' ') (List.replicate k2 c ++ t)
      rwa [List.length_replicate] at h2
    have hk_eq : k = k2 := by
      rw [hkDef, hdrop1]
      exact countLeading_replicate_append c k2 t htne
    have hdrop2 : line.drop (sp + k) = t := by
      rw [← List.drop_drop k sp line, hdrop1, hk_eq]
      have h2 := List.drop_left (List.replicate k2 c) t
      rwa [List.length_replicate] at h2
    have hall : (line.drop (sp + k)).all isSpTab = true := by
      rw [hdrop2]
      exact List.all_eq_true.mpr (fun x hx => (isSpTab_iff x).mpr (ht x hx))
    simp only [matchEndFence, ← hlineDef, ← hspDef, ← hkDef]
    rw [if_pos hls,
      if_pos ⟨(by rw [hsp_eq]; exact hsp3 : sp ≤ 3),
              (by rw [hk_eq]; exact hnk : n ≤ k), hall⟩, he]


theorem matchEndFence_of_len (src : Chars) (c : Char) (n : Nat) (hn : 1 ≤ n)
    (j : Nat) (hj : src.length ≤ j) : matchEndFence src j c n = none := by
  unfold matchEndFence
  split
  case isFalse => rfl
  case isTrue =>
    have hdrop : src.drop j = [] := List.drop_eq_nil_of_le hj
    rw [hdrop]
    simp [takeToNl, countLeading]
    omega

theorem endFenceScan_some (src : Chars) (c : Char) (n : Nat) :
    ∀ (f i s e : Nat), endFenceScan src c n f i = some (s, e) →
      i ≤ s ∧ matchEndFence src s c n = some e ∧
      ∀ j, i ≤ j → j < s → matchEndFence src j c n = none := by
  intro f
  induction f with
  | zero => intro i s e h; exact absurd h (by simp [endFenceScan])
  | succ f2 ih =>
    intro i s e h
    rw [endFenceScan] at h
    split at h
    case isTrue => exact absurd h (by simp)
    case isFalse hlen =>
      cases hm : matchEndFence src i c n with
      | some e0 =>
        rw [hm] at h
        injection h with h
        injection h with h1 h2
        subst h1; subst h2
        exact ⟨Nat.le_refl i, hm, fun j hj1 hj2 => absurd (Nat.lt_of_le_of_lt hj1 hj2) (Nat.lt_irrefl i)⟩
      | none =>
        rw [hm] at h
        obtain ⟨h1, h2, h3⟩ := ih (i + 1) s e h
        refine ⟨by omega, h2, ?_⟩
        intro j hj1 hj2
        rcases Nat.eq_or_lt_of_le hj1 with h4 | h4
        · exact h4 ▸ hm
        · exact h3 j h4 hj2

theorem endFenceScan_none (src : Chars) (c : Char) (n : Nat) (hn : 1 ≤ n) :
    ∀ (f i : Nat), endFenceScan src c n f i = none →
      ∀ j, i ≤ j → j < i + f → matchEndFence src j c n = none := by
  intro f
  induction f with
  | zero => intro i _ j _ _; omega
  | succ f2 ih =>
    intro i h j hj1 hj2
    rw [endFenceScan] at h
    split at h
    case isTrue hlen => exact matchEndFence_of_len src c n hn j (by omega)
    case isFalse hlen =>
      cases hm : matchEndFence src i c n with
      | some e0 => rw [hm] at h; exact absurd h (by simp)
      | none =>
        rw [hm] at h
        rcases Nat.eq_or_lt_of_le hj1 with h4 | h4
        · exact h4 ▸ hm
        · exact ih (i + 1) h j h4 (by omega)

theorem endFenceSearch_some (src : Chars) (c : Char) (n : Nat) (pos s e : Nat)
    (h : endFenceSearch src c n pos = some (s, e)) :
    pos ≤ s ∧ matchEndFence src s c n = some e ∧
    ∀ j, pos ≤ j → j < s → matchEndFence src j c n = none :=
  endFenceScan_some src c n _ pos s e h

theorem endFenceSearch_none (src : Chars) (c : Char) (n : Nat) (pos : Nat)
    (hn : 1 ≤ n) (h : endFenceSearch src c n pos = none) :
    ∀ j, pos ≤ j → matchEndFence src j c n = none := by
  intro j hj
  by_cases hl : src.length < j
  · exact matchEndFence_of_len src c n hn j (by omega)
  · exact endFenceScan_none src c n hn _ pos h j hj (by omega)


/-- Claim C4: for every fenced-code opening (0-3 spaces, fence of n >= 3
backticks or tildes) that the handler accepts, the block ends at the first
later line made of 0-3 leading spaces and at least n copies of the same
fence character (the source regex also allows trailing blanks on that
line), the emitted `block_code`'s `raw` is the escaped, indent-trimmed
content sliced up to the start of that closing line — so it excludes the
closing line — and the cursor moves past the closing line; when no closing
line exists at or after `m.end()`, the handler consumes to the end of the
buffer and emits the accumulated content. -/
theorem claim_C4 (st : BlockState) (m : ReMatch) (spaces marker info : Chars)
    (h1 : m.group? "fenced_1" = some spaces)
    (h2 : m.group? "fenced_2" = some marker)
    (h3 : m.group? "fenced_3" = some info)
    (hfc : marker.headD nulChar = btick ∨ marker.headD nulChar = '~')
    (hn : 3 ≤ marker.length)
    (hrej : ¬ (¬ info.isEmpty ∧ marker.headD nulChar = btick ∧ info.contains btick)) :
    (∀ s e, endFenceSearch st.src (marker.headD nulChar) marker.length m.endPos = some (s, e) →
       ClosingFenceLine st.src s (marker.headD nulChar) marker.length ∧
       (∀ j, m.endPos ≤ j → j < s →
          ¬ ClosingFenceLine st.src j (marker.headD nulChar) marker.length) ∧
       e = lineEndIncl st.src s ∧
       parse_fenced_code m st =
         (some e, st.appendToken (fencedTok spaces info (slice st.src m.endPos s)))) ∧
    (endFenceSearch st.src (marker.headD nulChar) marker.length m.endPos = none →
       (∀ j, m.endPos ≤ j →
          ¬ ClosingFenceLine st.src j (marker.headD nulChar) marker.length) ∧
       parse_fenced_code m st =
         (some st.cursorMax,
          st.appendToken (fencedTok spaces info (sliceFrom st.src m.endPos)))) := by
  have hcc : marker.headD nulChar ≠ ' ' ∧ marker.headD nulChar ≠ '\t' := by
    rcases hfc with h | h <;> rw [h] <;> exact ⟨by decide, by decide⟩
  have hn1 : 1 ≤ marker.length := by omega
  constructor
  · intro s e hs
    obtain ⟨ha, hb, hcmin⟩ := endFenceSearch_some _ _ _ _ _ _ hs
    have hcl := (matchEndFence_iff st.src s _ _ hcc hn1 e).mp hb
    refine ⟨hcl.1, ?_, hcl.2, ?_⟩
    · intro j hj1 hj2 hclj
      have h6 := hcmin j hj1 hj2
      have h5 := (matchEndFence_iff st.src j _ _ hcc hn1 (lineEndIncl st.src j
        )).mpr ⟨hclj, rfl⟩
      rw [h6] at h5
      exact absurd h5 (by simp)
    · simp only [parse_fenced_code, h1, h2, h3, Option.getD_some]
      rw [if_neg hrej, hs]
  · intro hnone
    have hmin := endFenceSearch_none _ _ _ _ hn1 hnone
    constructor
    · intro j hj hclj
      have h5 := (matchEndFence_iff st.src j _ _ hcc hn1 (lineEndIncl st.src j
        )).mpr ⟨hclj, rfl⟩
      rw [hmin j hj] at h5
      exact absurd h5 (by simp)
    · simp only [parse_fenced_code, h1, h2, h3, Option.getD_some]
      rw [if_neg hrej, hnone]


/-- Witness for C4 at a concrete document `~~~~\nab\n ~~~~~\nz\n`: the
closing fence is the ` ~~~~~` line at offset 8 and the handler returns the
raw content between the fences with the cursor after the closing line. -/
theorem claim_C4_witness :
    parse_fenced_code mC4 stC4 =
      (some 15, stC4.appendToken (fencedTok [] [] (str "\nab\n"))) ∧
    ClosingFenceLine srcC4 8 '~' 4 := by
  have h := claim_C4 stC4 mC4 [] (str "~~~~") [] rfl rfl rfl (Or.inr rfl)
    (by decide) (by decide)
  have h2 := h.1 8 15 rfl
  exact ⟨h2.2.2.2, h2.1⟩

theorem lookup_append_some {alpha beta : Type} [BEq alpha] (l l2 : List (alpha × beta))
    (k : alpha) (v : beta) (h : l.lookup k = some v) : (l ++ l2).lookup k = some v := by
  induction l with
  | nil => simp [List.lookup] at h
  | cons x xs ih =>
    cases x with
    | mk a b =>
      simp only [List.lookup, List.cons_append] at h ⊢
      by_cases hk : k == a
      · simp [hk] at h ⊢; exact h
      · simp only [hk] at h ⊢; exact ih h

theorem setLast_types (l : List Token) (tok tok' : Token) (h : l.getLast? = some tok)
    (ht : tok'.type = tok.type) : (setLast l tok').map Token.type = l.map Token.type := by
  obtain ⟨l2, rfl⟩ := List.getLast?_eq_some_iff.mp h
  simp [setLast, List.dropLast_concat, ht]

theorem appendParagraph_state (st : BlockState) (pos : Nat) (st1 : BlockState)
    (h : st.appendParagraph = some (pos, st1)) :
    st1.tokens.map Token.type = st.tokens.map Token.type ∧ st1.refLinks = st.refLinks := by
  unfold BlockState.appendParagraph at h
  cases hl : st.tokens.getLast? with
  | none => rw [hl] at h; exact absurd h (by simp)
  | some tok =>
    rw [hl] at h
    dsimp only [] at h
    by_cases hp : tok.type = "paragraph"
    · rw [if_pos hp] at h
      injection h with h
      injection h with h1 h2
      subst h2
      refine ⟨?_, rfl⟩
      exact setLast_types st.tokens tok _ hl hp.symm
    · rw [if_neg hp] at h; exact absurd h (by simp)

theorem refLinkBody_state (m : ReMatch) (st1 : BlockState) :
    (refLinkBody m st1).2 = st1 ∨
    ((st1.refLinks.lookup (unikey ((m.group? "link_1").getD []))).isNone ∧
     ∃ attrs, (refLinkBody m st1).2 =
       { st1 with refLinks :=
           st1.refLinks ++ [(unikey ((m.group? "link_1").getD []), attrs)] }) := by
  unfold refLinkBody
  dsimp only []
  repeat' split
  all_goals
    first
      | exact Or.inl rfl
      | exact Or.inr ⟨by assumption, _, rfl⟩

theorem parse_ref_link_eq (m : ReMatch) (st : BlockState) :
    parse_ref_link m st =
      match st.appendParagraph with
      | some (pos, st1) => if pos ≠ 0 then (some pos, st1) else refLinkBody m st1
      | none => refLinkBody m st := by
  unfold parse_ref_link apStep
  cases hap : st.appendParagraph with
  | none => simp [pyTruthy]
  | some pr =>
    obtain ⟨pos, st1⟩ := pr
    by_cases h : pos ≠ 0 <;> simp [pyTruthy, h]

/-- Claim C5: `parse_ref_link` never overwrites an entry of
`env.ref_links` — every existing binding is preserved, and when the
definition's normalized label is already present the whole table is left
unchanged (first definition wins); and the handler emits no token (the
token-type sequence is unchanged; at most an open paragraph's `text` is
extended). -/
theorem claim_C5 (m : ReMatch) (st : BlockState) :
    ((parse_ref_link m st).2.tokens.map Token.type = st.tokens.map Token.type) ∧
    (∀ k v, st.refLinks.lookup k = some v →
      (parse_ref_link m st).2.refLinks.lookup k = some v) ∧
    ((st.refLinks.lookup (unikey ((m.group? "link_1").getD []))).isSome →
      (parse_ref_link m st).2.refLinks = st.refLinks) := by
  rw [parse_ref_link_eq]
  cases hap : st.appendParagraph with
  | none =>
    dsimp only []
    rcases refLinkBody_state m st with h | ⟨hnone, attrs, h⟩
    · rw [h]
      exact ⟨rfl, fun k v hv => hv, fun _ => rfl⟩
    · rw [h]
      refine ⟨rfl, fun k v hv => lookup_append_some _ _ _ _ hv, fun hsome => ?_⟩
      rw [Option.isNone_iff_eq_none] at hnone
      rw [hnone] at hsome
      exact absurd hsome (by simp)
  | some pr =>
    obtain ⟨pos, st1⟩ := pr
    obtain ⟨hty, hrl⟩ := appendParagraph_state st pos st1 hap
    dsimp only []
    by_cases hpos : pos ≠ 0
    · rw [if_pos hpos]
      exact ⟨hty, fun k v hv => by rw [hrl]; exact hv, fun _ => hrl⟩
    · rw [if_neg hpos]
      rcases refLinkBody_state m st1 with h | ⟨hnone, attrs, h⟩
      · rw [h]
        exact ⟨hty, fun k v hv => by rw [hrl]; exact hv, fun _ => hrl⟩
      · rw [h]
        refine ⟨hty, ?_, fun hsome => ?_⟩
        · intro k v hv
          dsimp only []
          rw [hrl]
          exact lookup_append_some _ _ _ _ hv
        · rw [Option.isNone_iff_eq_none, hrl] at hnone
          rw [hnone] at hsome
          exact absurd hsome (by simp)

/-- Witness for C5: parsing a second definition of label `a` over a state
whose table already binds `a` leaves the table unchanged. -/
theorem claim_C5_witness :
    (parse_ref_link mC5 stC5).2.refLinks = stC5.refLinks ∧
    (parse_ref_link mC5 stC5).2.tokens.map Token.type = stC5.tokens.map Token.type ∧
    (parse_ref_link mC5 stC5).2.refLinks.lookup (str "a") =
      some [("url", AttrV.s (str "/old"))] := by
  have h := claim_C5 mC5 stC5
  refine ⟨h.2.2 rfl, h.1, ?_⟩
  have h2 := h.2.1 (str "a") [("url", AttrV.s (str "/old"))] rfl
  exact h2

theorem indexOf_decomp (b : String) (l : List String) (hb : b ∈ l) :
    (l.drop (l.indexOf b)).head? = some b ∧ b ∉ l.take (l.indexOf b) := by
  induction l with
  | nil => cases hb
  | cons x xs ih =>
    by_cases hx : x = b
    · subst hx
      rw [List.indexOf_cons_self]
      exact ⟨rfl, by simp⟩
    · have hb2 : b ∈ xs := by
        rcases List.mem_cons.mp hb with h | h
        · exact absurd h.symm hx
        · exact h
      obtain ⟨h1, h2⟩ := ih hb2
      rw [List.indexOf_cons_ne xs hx]
      refine ⟨h1, ?_⟩
      intro hmem
      rw [List.take_succ_cons] at hmem
      rcases List.mem_cons.mp hmem with h | h
      · exact hx h.symm
      · exact h2 h

theorem appendParagraph_none (st : BlockState) (h : st.lastIsParagraph = false) :
    st.appendParagraph = none := by
  unfold BlockState.lastIsParagraph at h
  unfold BlockState.appendParagraph
  cases hl : st.tokens.getLast? with
  | none => rfl
  | some tok =>
    rw [hl] at h
    dsimp only [] at h ⊢
    rw [if_neg (of_decide_eq_false h)]

/-- Claim C9 (amended): after `register_rule(name, handler, before)`, if
`before` names an existing rule the new rule is inserted immediately
before its first occurrence, otherwise it is appended; the matcher cache
is NOT invalidated — `register_rule` leaves `__sc` untouched, so a matcher
already cached for the active-rules key `$` is returned as-is by the next
`compile_sc` and does not include the new rule. -/
theorem claim_C9 (p : BlockParser) (name b : String) (hb : b ∈ p.rules)
    (hlen : b.length ≠ 0) :
    ((p.rules.drop (p.rules.indexOf b)).head? = some b) ∧
    (b ∉ p.rules.take (p.rules.indexOf b)) ∧
    register_rule p name (some b) =
      .ok { p with methods := p.methods ++ [name],
                   rules := p.rules.take (p.rules.indexOf b) ++
                            name :: p.rules.drop (p.rules.indexOf b) } ∧
    register_rule p name none =
      .ok { p with methods := p.methods ++ [name], rules := p.rules ++ [name] } ∧
    (∀ sc, p.scCache.lookup "$" = some sc →
      compile_sc { p with methods := p.methods ++ [name],
                          rules := p.rules.take (p.rules.indexOf b) ++
                                   name :: p.rules.drop (p.rules.indexOf b) } none =
        .ok (sc, { p with methods := p.methods ++ [name],
                          rules := p.rules.take (p.rules.indexOf b) ++
                                   name :: p.rules.drop (p.rules.indexOf b) })) := by
  obtain ⟨h1, h2⟩ := indexOf_decomp b p.rules hb
  refine ⟨h1, h2, ?_, rfl, ?_⟩
  · unfold register_rule
    dsimp only []
    rw [if_pos hlen, if_pos hb]
  · intro sc hsc
    unfold compile_sc
    dsimp only [cacheKey]
    rw [hsc]

/-- Counterexample to C9 as stated: compile the active-rules matcher, then
register `mathblock`; the next `compile_sc(None)` returns the cached
matcher, which does not include the new rule — the cache was not
invalidated. -/
theorem claim_C9_counterexample :
    compile_sc defaultBP none = .ok (RULE_NAMES, bpWarm) ∧
    register_rule bpWarm "mathblock" none = .ok bpWarmReg ∧
    compile_sc bpWarmReg none = .ok (RULE_NAMES, bpWarmReg) ∧
    "mathblock" ∈ bpWarmReg.rules ∧ "mathblock" ∉ RULE_NAMES := by
  refine ⟨rfl, rfl, rfl, by decide, by decide⟩

/-- Witness for C9 (amended) at a concrete call: registering `spoiler`
before `block_quote` inserts it immediately before that rule. -/
theorem claim_C9_witness :
    register_rule defaultBP "spoiler" (some "block_quote") =
      .ok { defaultBP with
            methods := RULE_NAMES ++ ["spoiler"],
            rules := ["blank_line", "fenced_code", "indent_code", "axt_heading",
                      "setex_heading", "thematic_break", "spoiler", "block_quote",
                      "ref_link", "raw_html"] } := by
  have h := claim_C9 defaultBP "spoiler" "block_quote" (by decide) (by decide)
  exact h.2.2.1

/-- Claim C10: every `block_code` token emitted by the fenced-code handler
carries the top-level field `fenced: True` in addition to `raw` (and the
optional `attrs.info`), while the `block_code` tokens of the indented-code
handler have no such field (`none` models the key being absent). -/
theorem claim_C10 (m : ReMatch) (st : BlockState) (e : Nat) (st2 : BlockState)
    (m3 : ReMatch) (st3 : BlockState) :
    (parse_fenced_code m st = (some e, st2) →
       st2.tokens.map Token.type = st.tokens.map Token.type ++ ["block_code"] ∧
       st2.tokens.map Token.fenced = st.tokens.map Token.fenced ++ [some true]) ∧
    (st3.lastIsParagraph = false →
       (parse_indent_code m3 st3).1 = some m3.endPos ∧
       (parse_indent_code m3 st3).2.tokens.map Token.type =
         st3.tokens.map Token.type ++ ["block_code"] ∧
       (parse_indent_code m3 st3).2.tokens.map Token.fenced =
         st3.tokens.map Token.fenced ++ [none]) := by
  constructor
  · intro h
    unfold parse_fenced_code at h
    dsimp only [] at h
    split at h
    case isTrue => exact absurd h (by simp)
    case isFalse =>
      split at h
      · rw [Prod.mk.injEq] at h
        obtain ⟨he, hst⟩ := h
        subst hst
        simp [BlockState.appendToken, fencedTok, Token.type, Token.fenced]
      · rw [Prod.mk.injEq] at h
        obtain ⟨he, hst⟩ := h
        subst hst
        simp [BlockState.appendToken, fencedTok, Token.type, Token.fenced]
  · intro h3
    unfold parse_indent_code apStep
    rw [appendParagraph_none st3 h3]
    dsimp only []
    refine ⟨rfl, ?_, ?_⟩ <;> simp [BlockState.appendToken, pyTruthy, Token.type, Token.fenced]

/-- Witness for C10 at concrete fenced and indented documents. -/
theorem claim_C10_witness :
    ((parse_fenced_code mC10f stC10f).2.tokens.map Token.fenced = [some true]) ∧
    ((parse_fenced_code mC10f stC10f).2.tokens.map Token.type = ["block_code"]) ∧
    ((parse_indent_code mC10i stC10i).2.tokens.map Token.fenced = [none]) ∧
    ((parse_indent_code mC10i stC10i).2.tokens.map Token.type = ["block_code"]) := by
  have h := claim_C10 mC10f stC10f 10 (parse_fenced_code mC10f stC10f).2 mC10i stC10i
  have h1 := h.1 rfl
  have h2 := h.2 rfl
  exact ⟨h1.2, h1.1, h2.2.2, h2.2.1⟩

/-- Claim C1 (code divergence): `> foo\n` alone parses to a `block_quote`
with a single paragraph, but on `> foo\nbar\n` the claimed lazy
continuation never happens — the loop at lines 342–343 passes the failed
break-rule match (`None`) straight to `parse_method`, which evaluates
`None.lastgroup` and raises `AttributeError`, so block parsing fails
instead of producing `block_quote{paragraph "foo\nbar"}`. -/
theorem claim_C1 :
    docTokens (str "> foo\n") =
      .ok [Token.mk "block_quote" none none [] [paragraphTok (str "foo\n")] none] ∧
    docTokens (str "> foo\nbar\n") = .error (.attributeError "lastgroup") :=
  ⟨rfl, rfl⟩

/-- Claim C2 (code divergence): the handler side holds — a setext
underline after a paragraph rewrites that very token in place into a
heading of level 1 (`=`) or 2 (`-`) — but when the last token is not a
paragraph the handler signals no match and the driver's fallback (line
590) evaluates the undefined name `pos`, raising `NameError`, so the
underline line never becomes paragraph text. -/
theorem claim_C2 :
    docTokens (str "foo\n===\n") =
      .ok [Token.mk "heading" none (some (str "foo\n")) [("level", AttrV.n 1)] [] none] ∧
    docTokens (str "foo\n---\n") =
      .ok [Token.mk "heading" none (some (str "foo\n")) [("level", AttrV.n 2)] [] none] ∧
    docTokens (str "---\n") = .error (.nameError "pos") :=
  ⟨rfl, rfl, rfl⟩

/-- Claim C6 (code divergence): the driver's no-advance fallback is
reached on `===\n` (a setext underline with no preceding paragraph); the
source then evaluates `state.get_text(pos)` with `pos` undefined (line
590), raising `NameError` instead of advancing one logical line as
paragraph text, so the progress guarantee fails. -/
theorem claim_C6 :
    docTokens (str "===\n") = .error (.nameError "pos") := rfl

/-- Claim C3 (code divergence): with an open paragraph, an empty list item
and an ordered item starting at 2 are appended to the paragraph (no
interruption), exactly as claimed; but an ordered item starting at 1,
which the claim says interrupts and starts a list, instead raises
`AttributeError` in `_parse_list_item` (line 439 references the undefined
`self.THEMATIC_BREAK`), so no list is ever started. -/
theorem claim_C3 :
    matchList (str "-\n") 0 = some mListEmpty ∧
    parse_list defaultBP mListEmpty stListEmpty =
      .ok (defaultBP, some (.int 2),
           { stListEmpty with tokens := [paragraphTok (str "x\n-\n")], cursor := 2 }) ∧
    matchList (str "2. y\n") 0 = some mListTwo ∧
    parse_list defaultBP mListTwo stListTwo =
      .ok (defaultBP, some (.int 5),
           { stListTwo with tokens := [paragraphTok (str "x\n2. y\n")], cursor := 5 }) ∧
    matchList (str "1. y\n") 0 = some mListOne ∧
    parse_list defaultBP mListOne stListOne = .error (.attributeError "THEMATIC_BREAK") :=
  ⟨rfl, rfl, rfl, rfl, rfl, rfl⟩

/-- Claim C7 (code divergence): at depth ≥ `max_nested_level`,
`rules.remove('list')` raises `ValueError` with the default configuration
because `list` is commented out of `RULE_NAMES` (hence absent from the
default `list_rules`); and even with `list` configured, `_parse_list_item`
raises `AttributeError` before any child state is parsed, so the reduced
rule set is never used. -/
theorem claim_C7 :
    matchList (str "- y\n") 0 = some mListDash ∧
    parse_list defaultBP mListDash stListDeep =
      .error (.valueError "list.remove(x): x not in list") ∧
    parse_list bpListRules mListDash stListDeep = .error (.attributeError "THEMATIC_BREAK") :=
  ⟨rfl, rfl, rfl⟩

/-- Claim C8 (code divergence): `parse_list` never completes — its first
`_parse_list_item` call raises `AttributeError` (line 439) — so no `list`
token with `attrs.tight` is ever produced; moreover the driver never
invokes `parse_list` (`list` is commented out of `RULE_NAMES`), so the
two-item list document parses as a single paragraph. -/
theorem claim_C8 :
    matchList (str "- a\n- b\n") 0 = some mListAB ∧
    parse_list defaultBP mListAB stListAB = .error (.attributeError "THEMATIC_BREAK") ∧
    docTokens (str "- a\n- b\n") = .ok [paragraphTok (str "- a\n- b\n")] :=
  ⟨rfl, rfl, rfl⟩

end Mistune
